import Mathlib

/-!
Shallow embedding of the country_exchange_api service (Node.js/Express/MySQL).

The primary server file of the repository (`index.js`, paired with the README) is
embedded here: the refresh pipeline (`POST /countries/refresh`), the read and
delete endpoints, and the summary-image step.  JavaScript numbers are modelled
as exact rationals extended with NaN and signed infinities (zeros are treated
as +0; IEEE rounding is not modelled — the claims under verification compare
values computed by the same formula on both sides).  `Math.random()` is
modelled as an ambient stream of rationals in [0, 1), one per country index.
The MySQL table is modelled as a list of rows; `SELECT ... LIMIT 1` is a
first-match scan, `UPDATE ... WHERE id = ?` rewrites that first match, and
`INSERT` appends.  Timestamps are opaque naturals; `toISOString` is the
identity on them.
-/

namespace CountryExchange

/-- JavaScript number: NaN, ±Infinity, or a finite value (exact rational). -/
inductive JsNum where
  | nan : JsNum
  | inf (pos : Bool) : JsNum
  | num (q : ℚ) : JsNum
deriving DecidableEq, Repr

/-- JavaScript multiplication (zeros treated as +0). -/
def jsMul : JsNum → JsNum → JsNum
  | .nan, _ => .nan
  | _, .nan => .nan
  | .inf s, .inf t => .inf (s == t)
  | .inf s, .num q => if q = 0 then .nan else .inf (s == decide (0 < q))
  | .num q, .inf s => if q = 0 then .nan else .inf (s == decide (0 < q))
  | .num a, .num b => .num (a * b)

/-- JavaScript division (zeros treated as +0). -/
def jsDiv : JsNum → JsNum → JsNum
  | .nan, _ => .nan
  | _, .nan => .nan
  | .inf _, .inf _ => .nan
  | .inf s, .num q => if q < 0 then .inf (!s) else .inf s
  | .num _, .inf _ => .num 0
  | .num a, .num b =>
      if b = 0 then (if a = 0 then .nan else .inf (decide (0 < a)))
      else .num (a / b)

/-- `randInt(min, max)` = `Math.floor(Math.random() * (max - min + 1)) + min`,
with the `Math.random()` draw `r ∈ [0, 1)` made explicit. -/
def randInt (min max : ℤ) (r : ℚ) : ℤ :=
  ⌊r * ((max : ℚ) - (min : ℚ) + 1)⌋ + min

/-- `computeEstimatedGdp(population, exchange_rate)` from index.js:
null population → null; NaN population → null; null rate → null; otherwise
`population * randInt(1000, 2000) / exchange_rate`. -/
def computeEstimatedGdp (population exchange_rate : Option JsNum) (r : ℚ) :
    Option JsNum :=
  match population with
  | none => none
  | some p =>
      if p = JsNum.nan then none
      else
        match exchange_rate with
        | none => none
        | some er => some (jsDiv (jsMul p (.num (randInt 1000 2000 r))) er)

/-- One element of the `currencies` array of a source country; each field is absent
(`none`) or a string (possibly empty, which JavaScript treats as falsy). -/
structure CurrencyEntry where
  code : Option String
  currency : Option String
  name : Option String
deriving DecidableEq, Repr

/-- JS truthiness for an optional string: `none` and `some ""` are falsy. -/
def jsTruthyStr : Option String → Option String
  | none => none
  | some s => if s = "" then none else some s

/-- `x || d` for an optional string `x` and a string default `d`. -/
def jsStrOr : Option String → String → String
  | none, d => d
  | some s, d => if s = "" then d else s

/-- `(first && (first.code || first.currency || first.name)) || null`:
the first truthy string among the three fields, else null. -/
def firstCode (e : CurrencyEntry) : Option String :=
  (jsTruthyStr e.code).orElse fun _ =>
    (jsTruthyStr e.currency).orElse fun _ => jsTruthyStr e.name

/-- A source country record as consumed by the refresh loop.  `population` is
the value of `Number(c.population)` when the field is present and non-null
(`some .nan` covers a present but non-numeric value), `none` when the field
is null or absent.  `currencies` is `none` when absent or not an array. -/
structure Country where
  name : Option String
  capital : Option String
  region : Option String
  population : Option JsNum
  currencies : Option (List CurrencyEntry)
  flag : Option String
deriving DecidableEq, Repr

/-- The `currency_code` extracted in the loop: first entry of a non-empty
`currencies` array, run through the `code || currency || name || null` chain. -/
def currencyCodeOf (c : Country) : Option String :=
  match c.currencies with
  | some (first :: _) => firstCode first
  | _ => none

/-- The exchange-rates payload `rates.rates`, an object mapping currency codes
to values, modelled as an association list (first binding wins). -/
abbrev RateMap : Type := List (String × JsNum)

/-- `rateMap[code]`, `none` when the key is absent (the check
`rateMap[currency_code] != null` is exactly `lookupRate m code ≠ none`,
since object lookup of an absent key yields undefined). -/
def lookupRate (m : RateMap) (code : String) : Option JsNum :=
  match m with
  | [] => none
  | (k, v) :: rest => if k = code then some v else lookupRate rest code

/-- Opaque timestamp instant (`new Date()`); `toISOString` is the identity. -/
abbrev Time : Type := ℕ

/-- A row of the `countries` table. -/
structure Row where
  name : Option String
  name_lower : String
  capital : Option String
  region : Option String
  population : Option JsNum
  currency_code : Option String
  exchange_rate : Option JsNum
  estimated_gdp : Option JsNum
  flag_url : Option String
  last_refreshed_at : Time
deriving DecidableEq, Repr

/-- `s.toLowerCase()`, modelled character by character (kernel-reducible,
unlike `String.toLower`). -/
def lowercase (s : String) : String :=
  String.mk (s.data.map Char.toLower)

/-- The upsert key for a source country: `c.name` defaulted to the empty
string, then lowercased. -/
def keyOf (c : Country) : String :=
  lowercase (jsStrOr c.name "")

/-- The entry fields shared by all three branches of the refresh loop body:
`name` is `c.name` or null, `name_lower` is `c.name` defaulted to the empty
string and lowercased,
`capital/region/flag_url = c.x || null`, `population` as converted, and the
run timestamp; `currency_code`, `exchange_rate`, `estimated_gdp` default to
null before the branch assigns them. -/
def baseEntry (now : Time) (c : Country) : Row where
  name := jsTruthyStr c.name
  name_lower := keyOf c
  capital := jsTruthyStr c.capital
  region := jsTruthyStr c.region
  population := c.population
  currency_code := none
  exchange_rate := none
  estimated_gdp := none
  flag_url := jsTruthyStr c.flag
  last_refreshed_at := now

/-- The entry built for one country `c` in the refresh loop, with `r` the
`Math.random()` draw of the country:
if the currency code is truthy and mapped, `exchange_rate` is the mapped rate
and `estimated_gdp = computeEstimatedGdp(population, exchange_rate)`;
if truthy but unmapped, both stay null;
with no truthy currency code, `estimated_gdp` is set to 0. -/
def entryFor (rm : RateMap) (now : Time) (r : ℚ) (c : Country) : Row :=
  match currencyCodeOf c with
  | some cc =>
      match lookupRate rm cc with
      | some rate =>
          { baseEntry now c with
              currency_code := some cc
              exchange_rate := some rate
              estimated_gdp := computeEstimatedGdp c.population (some rate) r }
      | none => { baseEntry now c with currency_code := some cc }
  | none => { baseEntry now c with estimated_gdp := some (JsNum.num 0) }

/-- `SELECT ... WHERE name_lower = ? LIMIT 1`: first row with the key. -/
def findRow : List Row → String → Option Row
  | [], _ => none
  | r :: rs, k => if r.name_lower = k then some r else findRow rs k

/-- Whether some row carries the key (the existence check before upsert). -/
def hasKey : List Row → String → Bool
  | [], _ => false
  | r :: rs, k => r.name_lower = k || hasKey rs k

/-- `UPDATE countries SET ... WHERE id = ?` aimed at the first row matching
the key of the entry: every field of that row except `name` and `name_lower` is
overwritten from the entry. -/
def mergeRow (old e : Row) : Row :=
  { e with name := old.name, name_lower := old.name_lower }

/-- Rewrite the first row whose key matches `e.name_lower`. -/
def updateFirst : List Row → Row → List Row
  | [], _ => []
  | row :: rest, e =>
      if row.name_lower = e.name_lower then mergeRow row e :: rest
      else row :: updateFirst rest e

/-- One iteration of the upsert loop: `SELECT id ... LIMIT 1`, then
`UPDATE` the found row or `INSERT` a fresh one. -/
def upsert (store : List Row) (e : Row) : List Row :=
  if hasKey store e.name_lower then updateFirst store e else store ++ [e]

/-- The upsert loop over the fetched countries, country at position `i`
drawing the random value `rand i`. -/
def refreshFrom (rm : RateMap) (now : Time) (rand : ℕ → ℚ) :
    ℕ → List Country → List Row → List Row
  | _, [], st => st
  | i, c :: cs, st =>
      refreshFrom rm now rand (i + 1) cs (upsert st (entryFor rm now (rand i) c))

/-- The table state after the refresh transaction commits. -/
def refreshStore (rm : RateMap) (now : Time) (rand : ℕ → ℚ)
    (countries : List Country) (store : List Row) : List Row :=
  refreshFrom rm now rand 0 countries store

/-- Response bodies produced by the handlers. -/
inductive Body where
  | err (error : String) (details : Option String) : Body
  | refreshDone (message : String) (total_countries : ℕ)
      (last_refreshed_at : Time) : Body
  | countryList (rows : List Row) : Body
  | country (r : Row) : Body
  | statusInfo (total_countries : ℕ) (last_refreshed_at : Option Time) : Body
  | noContent : Body
deriving DecidableEq, Repr

/-- An HTTP response: status code plus JSON body (or empty for 204). -/
structure HttpResponse where
  status : ℕ
  body : Body
deriving DecidableEq, Repr

/-- What `generateSummaryImage` prints into `cache/summary.png`: the total,
the `(name, estimated_gdp)` top-5 lines, and the run timestamp. -/
structure SummaryImage where
  total : ℕ
  top : List (Option String × Option JsNum)
  timestamp : Time
deriving DecidableEq, Repr

/-- The persistent state of the service: the `countries` table and the summary
image file (`none` until first generated). -/
structure ApiState where
  store : List Row
  image : Option SummaryImage
deriving DecidableEq, Repr

/-- Ordering of two values for `ORDER BY estimated_gdp DESC` (NaN and ∞
ordered below and above all finite values; MySQL cannot actually store them,
so their placement is moot). -/
def jsNumGe : JsNum → JsNum → Bool
  | .nan, .nan => true
  | .nan, _ => false
  | _, .nan => true
  | .inf true, _ => true
  | _, .inf true => false
  | .inf false, .inf false => true
  | .inf false, _ => false
  | _, .inf false => true
  | .num a, .num b => b ≤ a

/-- MySQL `ORDER BY estimated_gdp DESC` comparison: NULLs sort last in
descending order. -/
def gdpGe : Option JsNum → Option JsNum → Bool
  | none, none => true
  | none, some _ => false
  | some _, none => true
  | some a, some b => jsNumGe a b

/-- Insertion into a list kept in descending `estimated_gdp` order. -/
def insertDesc (x : Row) : List Row → List Row
  | [] => [x]
  | y :: ys => if gdpGe x.estimated_gdp y.estimated_gdp then x :: y :: ys
               else y :: insertDesc x ys

/-- Descending sort by `estimated_gdp`. -/
def sortGdpDesc (rows : List Row) : List Row :=
  rows.foldr insertDesc []

/-- `SELECT name, estimated_gdp FROM countries WHERE estimated_gdp IS NOT NULL
ORDER BY estimated_gdp DESC LIMIT 5`. -/
def top5 (store : List Row) : List (Option String × Option JsNum) :=
  ((sortGdpDesc (store.filter fun r => r.estimated_gdp ≠ none)).take 5).map
    fun r => (r.name, r.estimated_gdp)

/-- Outcome of `fetchExternalData()`: a thrown error (carrying
`err.response.config.url` when present) or the two payloads, with the rates
`rates` field of the payload `none` when the payload or the field is missing. -/
inductive FetchOutcome where
  | thrown (url : Option String) : FetchOutcome
  | fetched (countries : List Country) (rates : Option RateMap) : FetchOutcome

/-- The 503 detail string of the catch-all handler. -/
def catchDetails (url : Option String) : String :=
  match url with
  | some u => "Could not fetch data from " ++ u
  | none => "External data source unavailable"

/-- `POST /countries/refresh`.  `dbError` injects a database failure inside
the transaction (connection, begin, or any query of the upsert loop): the
catch of the handler rolls the transaction back and answers 503.  `imgError`
injects a failure inside `generateSummaryImage`, which that function catches
internally.  Returns the response and the new service state. -/
def postRefresh (fetch : FetchOutcome) (dbError imgError : Bool)
    (rand : ℕ → ℚ) (now : Time) (st : ApiState) : HttpResponse × ApiState :=
  match fetch with
  | .thrown url =>
      (⟨503, .err "External data source unavailable" (some (catchDetails url))⟩,
       st)
  | .fetched countries rates =>
      match rates with
      | none =>
          (⟨503, .err "External data source unavailable"
              (some "Could not fetch data from exchange rates API")⟩, st)
      | some rm =>
          if dbError then
            (⟨503, .err "External data source unavailable"
                (some (catchDetails none))⟩, st)
          else
            let store2 := refreshStore rm now rand countries st.store
            let total := store2.length
            let image2 := if imgError then st.image
                          else some ⟨total, top5 store2, now⟩
            (⟨200, .refreshDone "Refresh completed" total now⟩,
             ⟨store2, image2⟩)

/-- Row filter of `GET /countries`: equality on `region` and `currency_code`
for whichever query parameters are present (truthy), ANDed. -/
def matchesQuery (region currency : Option String) (r : Row) : Bool :=
  (match region with
   | some reg => r.region = some reg
   | none => true) &&
  (match currency with
   | some cur => r.currency_code = some cur
   | none => true)

/-- `GET /countries?region=&currency=&sort=gdp_desc`; `dbError` injects a
query failure, caught and answered with a constant 500 body. -/
def getCountries (st : ApiState) (region currency sort : Option String)
    (dbError : Bool) : HttpResponse :=
  if dbError then ⟨500, .err "Internal server error" none⟩
  else
    let rows := st.store.filter (matchesQuery region currency)
    let rows := if sort = some "gdp_desc" then sortGdpDesc rows else rows
    ⟨200, .countryList rows⟩

/-- `GET /countries/:name`: lowercases the path parameter and looks the row
up by `name_lower`. -/
def getCountryByName (st : ApiState) (nameParam : String) (dbError : Bool) :
    HttpResponse :=
  if dbError then ⟨500, .err "Internal server error" none⟩
  else
    match findRow st.store (lowercase nameParam) with
    | none => ⟨404, .err "Country not found" none⟩
    | some r => ⟨200, .country r⟩

/-- `DELETE /countries/:name`: lowercases the path parameter, deletes every
row with that `name_lower`, answers 204 when at least one row was affected
and 404 otherwise. -/
def deleteCountry (st : ApiState) (nameParam : String) (dbError : Bool) :
    HttpResponse × ApiState :=
  if dbError then (⟨500, .err "Internal server error" none⟩, st)
  else
    if (st.store.filter fun r => r.name_lower ≠ lowercase nameParam).length <
        st.store.length then
      (⟨204, .noContent⟩,
       { st with
           store := st.store.filter fun r => r.name_lower ≠ lowercase nameParam })
    else (⟨404, .err "Country not found" none⟩, st)

/-- `MAX(last_refreshed_at)` over the table, null when empty. -/
def maxRefreshed : List Row → Option Time
  | [] => none
  | r :: rs =>
      match maxRefreshed rs with
      | none => some r.last_refreshed_at
      | some t => some (Max.max r.last_refreshed_at t)

/-- `GET /status`. -/
def getStatus (st : ApiState) (dbError : Bool) : HttpResponse :=
  if dbError then ⟨500, .err "Internal server error" none⟩
  else ⟨200, .statusInfo st.store.length (maxRefreshed st.store)⟩

/-! ### Invariants and store-level lemmas -/

/-- The `name_lower` invariant of a row: `name_lower` is the lowercase of
`name` (a null `name` reads as the empty string, as in the source).
-/
def nameLowerInv (r : Row) : Prop :=
  r.name_lower = lowercase (r.name.getD "")

/-- Agreement on every field the refresh `UPDATE` writes (all fields except
`name` and `name_lower`). -/
def sameData (a b : Row) : Prop :=
  a.capital = b.capital ∧ a.region = b.region ∧ a.population = b.population ∧
  a.currency_code = b.currency_code ∧ a.exchange_rate = b.exchange_rate ∧
  a.estimated_gdp = b.estimated_gdp ∧ a.flag_url = b.flag_url ∧
  a.last_refreshed_at = b.last_refreshed_at

lemma jsTruthyStr_getD (x : Option String) :
    (jsTruthyStr x).getD "" = jsStrOr x "" := by
  cases x with
  | none => rfl
  | some s =>
      by_cases h : s = "" <;> simp [jsTruthyStr, jsStrOr, h]

lemma entryFor_name_lower (rm : RateMap) (now : Time) (r : ℚ) (c : Country) :
    (entryFor rm now r c).name_lower = keyOf c := by
  cases hc : currencyCodeOf c with
  | none => simp [entryFor, hc, baseEntry]
  | some cc =>
      cases hr : lookupRate rm cc with
      | none => simp [entryFor, hc, hr, baseEntry]
      | some rate => simp [entryFor, hc, hr, baseEntry]

lemma entryFor_ts (rm : RateMap) (now : Time) (r : ℚ) (c : Country) :
    (entryFor rm now r c).last_refreshed_at = now := by
  cases hc : currencyCodeOf c with
  | none => simp [entryFor, hc, baseEntry]
  | some cc =>
      cases hr : lookupRate rm cc with
      | none => simp [entryFor, hc, hr, baseEntry]
      | some rate => simp [entryFor, hc, hr, baseEntry]

lemma entryFor_name (rm : RateMap) (now : Time) (r : ℚ) (c : Country) :
    (entryFor rm now r c).name = jsTruthyStr c.name := by
  cases hc : currencyCodeOf c with
  | none => simp [entryFor, hc, baseEntry]
  | some cc =>
      cases hr : lookupRate rm cc with
      | none => simp [entryFor, hc, hr, baseEntry]
      | some rate => simp [entryFor, hc, hr, baseEntry]

lemma entryFor_inv (rm : RateMap) (now : Time) (r : ℚ) (c : Country) :
    nameLowerInv (entryFor rm now r c) := by
  unfold nameLowerInv
  rw [entryFor_name, entryFor_name_lower, jsTruthyStr_getD, keyOf]

lemma mergeRow_inv (old e : Row) (h : nameLowerInv old) :
    nameLowerInv (mergeRow old e) := h

lemma mergeRow_ts (old e : Row) :
    (mergeRow old e).last_refreshed_at = e.last_refreshed_at := rfl

lemma hasKey_cons_false (row : Row) (rs : List Row) (k : String)
    (h : hasKey (row :: rs) k = false) :
    row.name_lower ≠ k ∧ hasKey rs k = false := by
  simp only [hasKey, Bool.or_eq_false_iff, decide_eq_false_iff_not] at h
  exact h

lemma findRow_append_self (st : List Row) (e : Row)
    (h : hasKey st e.name_lower = false) :
    findRow (st ++ [e]) e.name_lower = some e := by
  induction st with
  | nil => simp [findRow]
  | cons row rs ih =>
      obtain ⟨hne, hrest⟩ := hasKey_cons_false row rs _ h
      simpa [findRow, hne] using ih hrest

lemma updateFirst_findRow_self (st : List Row) (e : Row)
    (h : hasKey st e.name_lower = true) :
    ∃ r2, findRow (updateFirst st e) e.name_lower = some r2 ∧
      sameData r2 e ∧ r2.name_lower = e.name_lower := by
  induction st with
  | nil => simp [hasKey] at h
  | cons row rs ih =>
      by_cases hr : row.name_lower = e.name_lower
      · refine ⟨mergeRow row e, ?_, ?_, hr⟩
        · simp [updateFirst, hr, findRow, mergeRow]
        · exact ⟨rfl, rfl, rfl, rfl, rfl, rfl, rfl, rfl⟩
      · have hrest : hasKey rs e.name_lower = true := by
          simpa [hasKey, hr] using h
        obtain ⟨r2, hfind, hdata, hkey⟩ := ih hrest
        exact ⟨r2, by simpa [updateFirst, hr, findRow] using hfind, hdata, hkey⟩

lemma upsert_findRow_self (st : List Row) (e : Row) :
    ∃ r2, findRow (upsert st e) e.name_lower = some r2 ∧
      sameData r2 e ∧ r2.name_lower = e.name_lower := by
  unfold upsert
  by_cases h : hasKey st e.name_lower = true
  · simpa [h] using updateFirst_findRow_self st e h
  · have hf : hasKey st e.name_lower = false := by
      simpa using h
    exact ⟨e, by simpa [hf] using findRow_append_self st e hf,
      ⟨rfl, rfl, rfl, rfl, rfl, rfl, rfl, rfl⟩, rfl⟩

lemma updateFirst_findRow_ne (st : List Row) (e : Row) (k : String)
    (h : k ≠ e.name_lower) :
    findRow (updateFirst st e) k = findRow st k := by
  induction st with
  | nil => rfl
  | cons row rs ih =>
      by_cases hr : row.name_lower = e.name_lower
      · have hrk : row.name_lower ≠ k := fun hk => h (hk.symm.trans hr)
        have hmk : (mergeRow row e).name_lower ≠ k := hrk
        simp only [updateFirst, if_pos hr, findRow, if_neg hmk, if_neg hrk]
      · by_cases hk : row.name_lower = k
        · simp only [updateFirst, if_neg hr, findRow, if_pos hk]
        · simp only [updateFirst, if_neg hr, findRow, if_neg hk, ih]

lemma append_findRow_ne (st : List Row) (e : Row) (k : String)
    (h : k ≠ e.name_lower) :
    findRow (st ++ [e]) k = findRow st k := by
  induction st with
  | nil =>
      have hne : e.name_lower ≠ k := fun hk => h hk.symm
      simp [findRow, hne]
  | cons row rs ih =>
      by_cases hk : row.name_lower = k
      · simp only [List.cons_append, findRow, if_pos hk]
      · simp only [List.cons_append, findRow, if_neg hk]
        exact ih

lemma upsert_findRow_ne (st : List Row) (e : Row) (k : String)
    (h : k ≠ e.name_lower) :
    findRow (upsert st e) k = findRow st k := by
  unfold upsert
  by_cases hk : hasKey st e.name_lower = true
  · simp [hk, updateFirst_findRow_ne st e k h]
  · simp [hk, append_findRow_ne st e k h]

lemma mem_updateFirst (st : List Row) (e r : Row)
    (h : r ∈ updateFirst st e) :
    r ∈ st ∨ ∃ old, old ∈ st ∧ r = mergeRow old e := by
  induction st with
  | nil => simp [updateFirst] at h
  | cons row rs ih =>
      by_cases hr : row.name_lower = e.name_lower
      · simp only [updateFirst, if_pos hr, List.mem_cons] at h
        rcases h with h | h
        · exact Or.inr ⟨row, List.mem_cons_self row rs, h⟩
        · exact Or.inl (List.mem_cons_of_mem row h)
      · simp only [updateFirst, if_neg hr, List.mem_cons] at h
        rcases h with h | h
        · exact Or.inl (h ▸ List.mem_cons_self row rs)
        · rcases ih h with h2 | ⟨old, hold, hm⟩
          · exact Or.inl (List.mem_cons_of_mem row h2)
          · exact Or.inr ⟨old, List.mem_cons_of_mem row hold, hm⟩

lemma mem_upsert (st : List Row) (e r : Row) (h : r ∈ upsert st e) :
    r ∈ st ∨ r = e ∨ ∃ old, old ∈ st ∧ r = mergeRow old e := by
  unfold upsert at h
  by_cases hk : hasKey st e.name_lower = true
  · rw [if_pos hk] at h
    rcases mem_updateFirst st e r h with h2 | h2
    · exact Or.inl h2
    · exact Or.inr (Or.inr h2)
  · rw [if_neg hk] at h
    rcases List.mem_append.mp h with h2 | h2
    · exact Or.inl h2
    · exact Or.inr (Or.inl (List.mem_singleton.mp h2))

lemma refreshFrom_findRow_not_mem (rm : RateMap) (now : Time) (rand : ℕ → ℚ) :
    ∀ (cs : List Country) (i : ℕ) (st : List Row) (k : String),
      (∀ c ∈ cs, keyOf c ≠ k) →
      findRow (refreshFrom rm now rand i cs st) k = findRow st k := by
  intro cs
  induction cs with
  | nil =>
      intro i st k _
      rfl
  | cons c cs ih =>
      intro i st k h
      have hc : keyOf c ≠ k := h c (List.mem_cons_self c cs)
      have hcs : ∀ c2 ∈ cs, keyOf c2 ≠ k :=
        fun c2 hm => h c2 (List.mem_cons_of_mem c hm)
      have hke : k ≠ (entryFor rm now (rand i) c).name_lower := by
        rw [entryFor_name_lower]
        exact fun hk => hc hk.symm
      simp only [refreshFrom]
      rw [ih (i + 1) _ k hcs, upsert_findRow_ne _ _ _ hke]

lemma refreshFrom_findRow_get (rm : RateMap) (now : Time) (rand : ℕ → ℚ) :
    ∀ (cs : List Country) (i : ℕ) (st : List Row) (j : ℕ) (hj : j < cs.length),
      (cs.map keyOf).Nodup →
      ∃ r2,
        findRow (refreshFrom rm now rand i cs st) (keyOf (cs.get ⟨j, hj⟩)) =
          some r2 ∧
        sameData r2 (entryFor rm now (rand (i + j)) (cs.get ⟨j, hj⟩)) ∧
        r2.name_lower = keyOf (cs.get ⟨j, hj⟩) := by
  intro cs
  induction cs with
  | nil =>
      intro i st j hj _
      exact absurd hj (by simp)
  | cons c cs ih =>
      intro i st j hj hnd
      have hnd1 : keyOf c ∉ cs.map keyOf ∧ (cs.map keyOf).Nodup :=
        List.nodup_cons.mp (by simpa using hnd)
      cases j with
      | zero =>
          have hcs : ∀ c2 ∈ cs, keyOf c2 ≠ keyOf c := by
            intro c2 hm heq
            exact hnd1.1 (heq ▸ List.mem_map_of_mem keyOf hm)
          obtain ⟨r2, hfind, hdata, hkey⟩ :=
            upsert_findRow_self st (entryFor rm now (rand i) c)
          refine ⟨r2, ?_, ?_, ?_⟩
          · show findRow (refreshFrom rm now rand (i + 1) cs
                (upsert st (entryFor rm now (rand i) c))) (keyOf c) = some r2
            rw [refreshFrom_findRow_not_mem rm now rand cs (i + 1) _ (keyOf c) hcs,
              ← entryFor_name_lower rm now (rand i) c]
            exact hfind
          · simpa using hdata
          · exact hkey.trans (entryFor_name_lower rm now (rand i) c)
      | succ j =>
          obtain ⟨r2, hfind, hdata, hkey⟩ :=
            ih (i + 1) (upsert st (entryFor rm now (rand i) c)) j
              (by simpa using hj) hnd1.2
          have harith : i + 1 + j = i + (j + 1) := by omega
          refine ⟨r2, hfind, ?_, hkey⟩
          rw [← harith]
          exact hdata

lemma refreshFrom_inv (rm : RateMap) (now : Time) (rand : ℕ → ℚ) :
    ∀ (cs : List Country) (i : ℕ) (st : List Row),
      (∀ r ∈ st, nameLowerInv r) →
      ∀ r ∈ refreshFrom rm now rand i cs st, nameLowerInv r := by
  intro cs
  induction cs with
  | nil =>
      intro i st h
      exact h
  | cons c cs ih =>
      intro i st h
      apply ih (i + 1)
      intro r hr
      rcases mem_upsert st (entryFor rm now (rand i) c) r hr with
        hmem | heq | ⟨old, hold, hm⟩
      · exact h r hmem
      · exact heq ▸ entryFor_inv rm now (rand i) c
      · exact hm ▸ mergeRow_inv old _ (h old hold)

lemma refreshFrom_ts (rm : RateMap) (now : Time) (rand : ℕ → ℚ)
    (st0 : List Row) :
    ∀ (cs : List Country) (i : ℕ) (st : List Row),
      (∀ r ∈ st, r ∈ st0 ∨ r.last_refreshed_at = now) →
      ∀ r ∈ refreshFrom rm now rand i cs st,
        r ∈ st0 ∨ r.last_refreshed_at = now := by
  intro cs
  induction cs with
  | nil =>
      intro i st h
      exact h
  | cons c cs ih =>
      intro i st h
      apply ih (i + 1)
      intro r hr
      rcases mem_upsert st (entryFor rm now (rand i) c) r hr with
        hmem | heq | ⟨old, hold, hm⟩
      · exact h r hmem
      · exact Or.inr (heq ▸ entryFor_ts rm now (rand i) c)
      · refine Or.inr ?_
        rw [hm, mergeRow_ts]
        exact entryFor_ts rm now (rand i) c

lemma randInt_bounds (r : ℚ) (h0 : 0 ≤ r) (h1 : r < 1) :
    1000 ≤ randInt 1000 2000 r ∧ randInt 1000 2000 r ≤ 2000 := by
  unfold randInt
  have hval : ((2000 : ℤ) : ℚ) - ((1000 : ℤ) : ℚ) + 1 = 1001 := by norm_num
  rw [hval]
  constructor
  · have hnn : (0 : ℤ) ≤ ⌊r * 1001⌋ :=
      Int.floor_nonneg.mpr (mul_nonneg h0 (by norm_num))
    omega
  · have hlt : r * 1001 < 1001 := by nlinarith
    have hfl : ⌊r * 1001⌋ < 1001 := by
      rw [Int.floor_lt]
      exact_mod_cast hlt
    omega

lemma entryFor_rate_found (rm : RateMap) (now : Time) (r : ℚ) (c : Country)
    (cc : String) (rate : JsNum)
    (hcc : currencyCodeOf c = some cc) (hr : lookupRate rm cc = some rate) :
    (entryFor rm now r c).currency_code = some cc ∧
    (entryFor rm now r c).exchange_rate = some rate ∧
    (entryFor rm now r c).estimated_gdp =
      computeEstimatedGdp c.population (some rate) r := by
  refine ⟨?_, ?_, ?_⟩ <;> simp [entryFor, hcc, hr]

lemma entryFor_rate_missing (rm : RateMap) (now : Time) (r : ℚ) (c : Country)
    (cc : String)
    (hcc : currencyCodeOf c = some cc) (hr : lookupRate rm cc = none) :
    (entryFor rm now r c).currency_code = some cc ∧
    (entryFor rm now r c).exchange_rate = none ∧
    (entryFor rm now r c).estimated_gdp = none := by
  refine ⟨?_, ?_, ?_⟩ <;> simp [entryFor, hcc, hr, baseEntry]

lemma entryFor_no_currency (rm : RateMap) (now : Time) (r : ℚ) (c : Country)
    (hcc : currencyCodeOf c = none) :
    (entryFor rm now r c).currency_code = none ∧
    (entryFor rm now r c).exchange_rate = none ∧
    (entryFor rm now r c).estimated_gdp = some (JsNum.num 0) := by
  refine ⟨?_, ?_, ?_⟩ <;> simp [entryFor, hcc, baseEntry]

lemma findRow_some_mem (st : List Row) (k : String) (r : Row)
    (h : findRow st k = some r) : r ∈ st ∧ r.name_lower = k := by
  induction st with
  | nil => simp [findRow] at h
  | cons row rs ih =>
      by_cases hk : row.name_lower = k
      · rw [findRow, if_pos hk] at h
        obtain rfl : row = r := by injection h
        exact ⟨List.mem_cons_self row rs, hk⟩
      · rw [findRow, if_neg hk] at h
        obtain ⟨hm, hkey⟩ := ih h
        exact ⟨List.mem_cons_of_mem row hm, hkey⟩

lemma filter_ne_length_lt (st : List Row) (k : String) (r : Row)
    (hm : r ∈ st) (hk : r.name_lower = k) :
    (st.filter fun x => x.name_lower ≠ k).length < st.length := by
  induction st with
  | nil => simp at hm
  | cons row rs ih =>
      rcases List.mem_cons.mp hm with rfl | hm2
      · have : ¬(decide (r.name_lower ≠ k) = true) := by simp [hk]
        rw [List.filter_cons, if_neg this]
        have hle := List.length_filter_le (fun x => decide (x.name_lower ≠ k)) rs
        simp only [List.length_cons]
        omega
      · by_cases hd : row.name_lower ≠ k
        · rw [List.filter_cons, if_pos (by simpa using hd)]
          simpa using ih hm2
        · rw [List.filter_cons, if_neg (by simpa using hd)]
          have hle := List.length_filter_le (fun x => decide (x.name_lower ≠ k)) rs
          simp only [List.length_cons]
          omega

lemma findRow_filter_ne (st : List Row) (k : String) :
    findRow (st.filter fun x => x.name_lower ≠ k) k = none := by
  induction st with
  | nil => rfl
  | cons row rs ih =>
      by_cases hd : row.name_lower ≠ k
      · rw [List.filter_cons, if_pos (by simpa using hd), findRow, if_neg hd]
        exact ih
      · rw [List.filter_cons, if_neg (by simpa using hd)]
        exact ih

/-! ### Concrete fixtures -/

/-- The rate mapping NGN to 1500 of the worked example in the spec. -/
def ngnRates : RateMap := [("NGN", JsNum.num 1500)]

/-- The worked example country of the spec. -/
def nigeria : Country :=
  { name := some "Nigeria", capital := some "Abuja", region := some "Africa",
    population := some (JsNum.num 206139589),
    currencies := some [{ code := some "NGN", currency := none, name := none }],
    flag := some "https://flagcdn.com/ng.svg" }

/-- A country with no currency entries and no population. -/
def atlantis : Country :=
  { name := some "Atlantis", capital := none, region := none,
    population := none, currencies := none, flag := none }

/-- A country with a mapped currency but a NaN population. -/
def pacifica : Country :=
  { name := some "Pacifica", capital := none, region := none,
    population := some JsNum.nan,
    currencies := some [{ code := some "NGN", currency := none, name := none }],
    flag := none }

/-- A country whose currency code is absent from the rate mapping. -/
def zorbia : Country :=
  { name := some "Zorbia", capital := none, region := none,
    population := some (JsNum.num 1000),
    currencies := some [{ code := some "ZZZ", currency := none, name := none }],
    flag := none }

/-- A persisted row for the worked example. -/
def nigeriaRow : Row :=
  { name := some "Nigeria", name_lower := "nigeria", capital := some "Abuja",
    region := some "Africa", population := some (JsNum.num 206139589),
    currency_code := some "NGN", exchange_rate := some (JsNum.num 1500),
    estimated_gdp := some (JsNum.num 206139589000), flag_url := none,
    last_refreshed_at := 0 }

/-! ### Claims -/

/-- C1: for every country in the refresh input with a currency code present
in the rate mapping and a numeric (non-null, non-NaN) population, the
persisted `estimated_gdp` equals `population * multiplier / exchange_rate`
for some integer multiplier in [1000, 2000], where `exchange_rate` is the
mapped rate for that currency code. -/
theorem refresh_gdp_formula (rm : RateMap) (now : Time) (rand : ℕ → ℚ)
    (countries : List Country) (store : List Row)
    (hrand : ∀ i, 0 ≤ rand i ∧ rand i < 1)
    (hnd : (countries.map keyOf).Nodup)
    (j : ℕ) (hj : j < countries.length)
    (cc : String) (hcc : currencyCodeOf (countries.get ⟨j, hj⟩) = some cc)
    (rate : JsNum) (hrate : lookupRate rm cc = some rate)
    (p : ℚ) (hp : (countries.get ⟨j, hj⟩).population = some (JsNum.num p)) :
    ∃ r2, findRow (refreshStore rm now rand countries store)
        (keyOf (countries.get ⟨j, hj⟩)) = some r2 ∧
      r2.exchange_rate = some rate ∧
      ∃ m : ℤ, 1000 ≤ m ∧ m ≤ 2000 ∧
        r2.estimated_gdp =
          some (jsDiv (jsMul (JsNum.num p) (JsNum.num (m : ℚ))) rate) := by
  obtain ⟨r2, hfind, hdata, hkey⟩ :=
    refreshFrom_findRow_get rm now rand countries 0 store j hj hnd
  obtain ⟨hcap, hreg, hpop, hcurr, hxr, hgdp, hflag, hts⟩ := hdata
  obtain ⟨hc1, hc2, hc3⟩ :=
    entryFor_rate_found rm now (rand (0 + j)) (countries.get ⟨j, hj⟩) cc rate
      hcc hrate
  refine ⟨r2, hfind, ?_, ?_⟩
  · rw [hxr, hc2]
  · refine ⟨randInt 1000 2000 (rand (0 + j)),
      (randInt_bounds _ (hrand _).1 (hrand _).2).1,
      (randInt_bounds _ (hrand _).1 (hrand _).2).2, ?_⟩
    rw [hgdp, hc3, hp]
    simp [computeEstimatedGdp]

/-- C1 witness: the worked example of the spec, random draw fixed at 0. -/
theorem refresh_gdp_formula_witness :
    ∃ r2, findRow (refreshStore ngnRates 0 (fun _ => (0 : ℚ)) [nigeria] [])
        (keyOf nigeria) = some r2 ∧
      r2.exchange_rate = some (JsNum.num 1500) ∧
      ∃ m : ℤ, 1000 ≤ m ∧ m ≤ 2000 ∧
        r2.estimated_gdp =
          some (jsDiv (jsMul (JsNum.num 206139589) (JsNum.num (m : ℚ)))
            (JsNum.num 1500)) :=
  refresh_gdp_formula ngnRates 0 (fun _ => 0) [nigeria] []
    (fun _ => ⟨le_refl 0, by norm_num⟩) (by simp) 0 (by decide)
    "NGN" (by decide) (JsNum.num 1500) (by decide) 206139589 (by decide)

/-- C2 counterexample: a country with no currency entries and a missing
population is persisted with `estimated_gdp = 0`, not null — the no-currency
branch wins over the missing-population rule. -/
theorem refresh_nullpop_counterexample :
    ∃ r2, findRow (refreshStore ngnRates 0 (fun _ => (0 : ℚ)) [atlantis] [])
        "atlantis" = some r2 ∧
      r2.population = none ∧ r2.estimated_gdp = some (JsNum.num 0) ∧
      r2.estimated_gdp ≠ none := by
  refine ⟨entryFor ngnRates 0 0 atlantis, by decide, rfl, rfl, by decide⟩

/-- C2 amended: for every country in the refresh input that has a currency
code, if its population is missing or NaN the persisted `estimated_gdp` is
null, whether or not the rate mapping contains the code; a country with no
currency code instead gets `estimated_gdp = 0` regardless of population. -/
theorem refresh_invalid_population_null_gdp (rm : RateMap) (now : Time)
    (rand : ℕ → ℚ) (countries : List Country) (store : List Row)
    (hnd : (countries.map keyOf).Nodup)
    (j : ℕ) (hj : j < countries.length)
    (cc : String) (hcc : currencyCodeOf (countries.get ⟨j, hj⟩) = some cc)
    (hp : (countries.get ⟨j, hj⟩).population = none ∨
          (countries.get ⟨j, hj⟩).population = some JsNum.nan) :
    ∃ r2, findRow (refreshStore rm now rand countries store)
        (keyOf (countries.get ⟨j, hj⟩)) = some r2 ∧
      r2.estimated_gdp = none := by
  obtain ⟨r2, hfind, hdata, hkey⟩ :=
    refreshFrom_findRow_get rm now rand countries 0 store j hj hnd
  obtain ⟨hcap, hreg, hpop, hcurr, hxr, hgdp, hflag, hts⟩ := hdata
  refine ⟨r2, hfind, ?_⟩
  cases hrate : lookupRate rm cc with
  | some rate =>
      obtain ⟨hc1, hc2, hc3⟩ :=
        entryFor_rate_found rm now (rand (0 + j)) _ cc rate hcc hrate
      rw [hgdp, hc3]
      rcases hp with hp | hp <;> rw [hp] <;> simp [computeEstimatedGdp]
  | none =>
      obtain ⟨hc1, hc2, hc3⟩ :=
        entryFor_rate_missing rm now (rand (0 + j)) _ cc hcc hrate
      rw [hgdp, hc3]

/-- C2 witness (amended form): a country with a mapped currency code but a
NaN population is persisted with null `estimated_gdp`. -/
theorem refresh_invalid_population_null_gdp_witness :
    ∃ r2, findRow (refreshStore ngnRates 0 (fun _ => (0 : ℚ)) [pacifica] [])
        (keyOf pacifica) = some r2 ∧
      r2.estimated_gdp = none :=
  refresh_invalid_population_null_gdp ngnRates 0 (fun _ => 0) [pacifica] []
    (by simp) 0 (by decide) "NGN" (by decide) (Or.inr (by decide))

/-- C3: for every country in the refresh input with no currency entries at
all (absent or empty list), the persisted record has `estimated_gdp`
exactly 0 and `exchange_rate` null. -/
theorem refresh_no_currency_zero_gdp (rm : RateMap) (now : Time)
    (rand : ℕ → ℚ) (countries : List Country) (store : List Row)
    (hnd : (countries.map keyOf).Nodup)
    (j : ℕ) (hj : j < countries.length)
    (hcur : (countries.get ⟨j, hj⟩).currencies = none ∨
            (countries.get ⟨j, hj⟩).currencies = some []) :
    ∃ r2, findRow (refreshStore rm now rand countries store)
        (keyOf (countries.get ⟨j, hj⟩)) = some r2 ∧
      r2.estimated_gdp = some (JsNum.num 0) ∧ r2.exchange_rate = none := by
  have hcc : currencyCodeOf (countries.get ⟨j, hj⟩) = none := by
    unfold currencyCodeOf
    rcases hcur with h | h <;> rw [h]
  obtain ⟨r2, hfind, hdata, hkey⟩ :=
    refreshFrom_findRow_get rm now rand countries 0 store j hj hnd
  obtain ⟨hcap, hreg, hpop, hcurr, hxr, hgdp, hflag, hts⟩ := hdata
  obtain ⟨hc1, hc2, hc3⟩ := entryFor_no_currency rm now (rand (0 + j)) _ hcc
  exact ⟨r2, hfind, by rw [hgdp, hc3], by rw [hxr, hc2]⟩

/-- C3 witness: a country with no currency entries. -/
theorem refresh_no_currency_zero_gdp_witness :
    ∃ r2, findRow (refreshStore ngnRates 0 (fun _ => (0 : ℚ)) [atlantis] [])
        (keyOf atlantis) = some r2 ∧
      r2.estimated_gdp = some (JsNum.num 0) ∧ r2.exchange_rate = none :=
  refresh_no_currency_zero_gdp ngnRates 0 (fun _ => 0) [atlantis] []
    (by simp) 0 (by decide) (Or.inl (by decide))

/-- C4: for every country in the refresh input whose currency code is absent
from the rate mapping, the persisted record has `exchange_rate` null and
`estimated_gdp` null. -/
theorem refresh_unmapped_currency_null (rm : RateMap) (now : Time)
    (rand : ℕ → ℚ) (countries : List Country) (store : List Row)
    (hnd : (countries.map keyOf).Nodup)
    (j : ℕ) (hj : j < countries.length)
    (cc : String) (hcc : currencyCodeOf (countries.get ⟨j, hj⟩) = some cc)
    (hrate : lookupRate rm cc = none) :
    ∃ r2, findRow (refreshStore rm now rand countries store)
        (keyOf (countries.get ⟨j, hj⟩)) = some r2 ∧
      r2.exchange_rate = none ∧ r2.estimated_gdp = none := by
  obtain ⟨r2, hfind, hdata, hkey⟩ :=
    refreshFrom_findRow_get rm now rand countries 0 store j hj hnd
  obtain ⟨hcap, hreg, hpop, hcurr, hxr, hgdp, hflag, hts⟩ := hdata
  obtain ⟨hc1, hc2, hc3⟩ :=
    entryFor_rate_missing rm now (rand (0 + j)) _ cc hcc hrate
  exact ⟨r2, hfind, by rw [hxr, hc2], by rw [hgdp, hc3]⟩

/-- C4 witness: a country with the unmapped currency code "ZZZ". -/
theorem refresh_unmapped_currency_null_witness :
    ∃ r2, findRow (refreshStore ngnRates 0 (fun _ => (0 : ℚ)) [zorbia] [])
        (keyOf zorbia) = some r2 ∧
      r2.exchange_rate = none ∧ r2.estimated_gdp = none :=
  refresh_unmapped_currency_null ngnRates 0 (fun _ => 0) [zorbia] []
    (by simp) 0 (by decide) "ZZZ" (by decide) (by decide)

/-- C5: every row written by the refresh pipeline satisfies
`name_lower = lowercase(name)`; the invariant is preserved across a refresh
run, so it holds for every row in the store afterwards whenever it held for
every row before. -/
theorem refresh_preserves_name_lower_inv (rm : RateMap) (now : Time)
    (rand : ℕ → ℚ) (countries : List Country) (store : List Row)
    (h : ∀ r ∈ store, nameLowerInv r) (r : Row)
    (hr : r ∈ refreshStore rm now rand countries store) : nameLowerInv r :=
  refreshFrom_inv rm now rand countries 0 store h r hr

/-- C5 witness: the row persisted for a concrete refresh of one country into
an empty store satisfies the invariant. -/
theorem refresh_preserves_name_lower_inv_witness :
    nameLowerInv (entryFor ngnRates 0 0 atlantis) :=
  refresh_preserves_name_lower_inv ngnRates 0 (fun _ => 0) [atlantis] []
    (by intro r hr; simp at hr) (entryFor ngnRates 0 0 atlantis)
    (by simp [refreshStore, refreshFrom, upsert, hasKey])

/-- C6: when the rate payload carries no `rates` mapping, the refresh
endpoint answers 503 and the whole service state — country table and summary
image alike — is exactly what it was before the call. -/
theorem refresh_malformed_rates_atomic (countries : List Country)
    (dbError imgError : Bool) (rand : ℕ → ℚ) (now : Time) (st : ApiState) :
    postRefresh (.fetched countries none) dbError imgError rand now st =
      (⟨503, .err "External data source unavailable"
          (some "Could not fetch data from exchange rates API")⟩, st) := rfl

/-- C7 counterexample: a database failure inside the refresh transaction is
answered with status 503 (the catch-all maps every error, database errors
included, to the external-source-unavailable response), not 500. -/
theorem db_error_refresh_503_counterexample :
    (postRefresh (.fetched [] (some [])) true false (fun _ => (0 : ℚ)) 0
        ⟨[], none⟩).1.status = 503 ∧ (503 : ℕ) ≠ 500 :=
  ⟨rfl, by decide⟩

/-- C7 amended: database errors on the read and delete endpoints are
surfaced as 500 with a constant body and no exception detail, but a database
failure during `POST /countries/refresh` is surfaced as 503 with the generic
external-source message. -/
theorem internal_errors_500_except_refresh (st : ApiState)
    (region currency sort : Option String) (nameParam : String)
    (countries : List Country) (rm : RateMap) (imgError : Bool)
    (rand : ℕ → ℚ) (now : Time) :
    getCountries st region currency sort true =
      ⟨500, .err "Internal server error" none⟩ ∧
    getCountryByName st nameParam true =
      ⟨500, .err "Internal server error" none⟩ ∧
    deleteCountry st nameParam true =
      (⟨500, .err "Internal server error" none⟩, st) ∧
    getStatus st true = ⟨500, .err "Internal server error" none⟩ ∧
    (postRefresh (.fetched countries (some rm)) true imgError rand now st).1 =
      ⟨503, .err "External data source unavailable"
        (some "External data source unavailable")⟩ :=
  ⟨rfl, rfl, rfl, rfl, rfl⟩

/-- C8: a successful refresh run answers 200 carrying the run timestamp
`now`, and every row of the resulting table is either an untouched row of
the previous table or carries exactly that timestamp — all records touched
in one run share the one timestamp returned in the response. -/
theorem refresh_single_timestamp (countries : List Country) (rm : RateMap)
    (imgError : Bool) (rand : ℕ → ℚ) (now : Time) (st : ApiState) :
    (postRefresh (.fetched countries (some rm)) false imgError rand now
        st).1 =
      ⟨200, .refreshDone "Refresh completed"
        (refreshStore rm now rand countries st.store).length now⟩ ∧
    ∀ r ∈ (postRefresh (.fetched countries (some rm)) false imgError rand now
        st).2.store,
      r ∈ st.store ∨ r.last_refreshed_at = now := by
  refine ⟨rfl, ?_⟩
  intro r hr
  exact refreshFrom_ts rm now rand st.store countries 0 st.store
    (fun x hx => Or.inl hx) r hr

/-- C9: `GET /countries/:name` and `DELETE /countries/:name` lowercase the
path parameter before matching it against `name_lower`, so any casing whose
lowercase form is a persisted key finds the record: the GET answers 200 with
that row, the DELETE answers 204 and afterwards no row with that key
remains. -/
theorem name_lookup_case_insensitive (st : ApiState) (s : String) (r2 : Row)
    (h : findRow st.store (lowercase s) = some r2) :
    getCountryByName st s false = ⟨200, .country r2⟩ ∧
    (deleteCountry st s false).1 = ⟨204, .noContent⟩ ∧
    findRow (deleteCountry st s false).2.store (lowercase s) = none := by
  obtain ⟨hm, hk⟩ := findRow_some_mem st.store (lowercase s) r2 h
  have hlt := filter_ne_length_lt st.store (lowercase s) r2 hm hk
  have hg : getCountryByName st s false =
      (match findRow st.store (lowercase s) with
       | none => ⟨404, Body.err "Country not found" none⟩
       | some r => ⟨200, Body.country r⟩) := rfl
  have hd : deleteCountry st s false =
      (if (st.store.filter fun r => r.name_lower ≠ lowercase s).length <
          st.store.length then
        ((⟨204, Body.noContent⟩ : HttpResponse),
         ({ st with
              store := st.store.filter fun r =>
                r.name_lower ≠ lowercase s } : ApiState))
      else (⟨404, Body.err "Country not found" none⟩, st)) := rfl
  refine ⟨?_, ?_, ?_⟩
  · rw [hg, h]
  · rw [hd, if_pos hlt]
  · rw [hd, if_pos hlt]
    exact findRow_filter_ne st.store (lowercase s)

/-- C9 witness: the worked example row is found and deleted through the
mixed-case path parameter "Nigeria". -/
theorem name_lookup_case_insensitive_witness :
    getCountryByName ⟨[nigeriaRow], none⟩ "Nigeria" false =
      ⟨200, .country nigeriaRow⟩ ∧
    (deleteCountry ⟨[nigeriaRow], none⟩ "Nigeria" false).1 =
      ⟨204, .noContent⟩ ∧
    findRow (deleteCountry ⟨[nigeriaRow], none⟩ "Nigeria" false).2.store
      (lowercase "Nigeria") = none :=
  name_lookup_case_insensitive ⟨[nigeriaRow], none⟩ "Nigeria" nigeriaRow
    (by decide)

/-- C10: a failure inside the summary-image generation is swallowed there
and does not change the outcome of the refresh: the response (a 200 with the
refresh payload) and the committed table are identical with and without the
image failure; only the image file is left as it was. -/
theorem image_failure_does_not_affect_refresh (countries : List Country)
    (rm : RateMap) (rand : ℕ → ℚ) (now : Time) (st : ApiState) :
    (postRefresh (.fetched countries (some rm)) false true rand now st).1 =
      (postRefresh (.fetched countries (some rm)) false false rand now
        st).1 ∧
    (postRefresh (.fetched countries (some rm)) false true rand now
        st).1.status = 200 ∧
    (postRefresh (.fetched countries (some rm)) false true rand now
        st).2.store =
      (postRefresh (.fetched countries (some rm)) false false rand now
        st).2.store ∧
    (postRefresh (.fetched countries (some rm)) false true rand now
        st).2.image = st.image :=
  ⟨rfl, rfl, rfl, rfl⟩

end CountryExchange
